import Mathlib

/-!
Verification of the simulation-and-analysis core of `generation_cartes.py`:
the coastal mask builder, the particle seeder, the Gibraltar boundary clamp,
and the cumulative capture-analysis loop.

Modelling conventions.  A floating-point sample is an `Option ℚ`: `some v`
is a finite value, `none` is a NaN entry (an undefined position or time).
Every numpy comparison whose operand is NaN yields `False`; the `Option`
matches below reproduce exactly that.  The trajectory arrays `lon`, `lat`
and `time` of the zarr store are total maps from particle index and output
step to such samples, together with the array shape `(n_part, n_steps)`.
-/

/-- The capture rectangle (`AMP_BOX` in the source): inclusive bounds
`lon_min ≤ lon ≤ lon_max`, `lat_min ≤ lat ≤ lat_max`. -/
structure Box where
  lon_min : ℚ
  lon_max : ℚ
  lat_min : ℚ
  lat_max : ℚ

/-- The recorded trajectory store: `lon p t`, `lat p t` are particle `p`'s
position at output step `t`, `time p t` its recorded time in nanoseconds.
`n_part` and `n_steps` are the shape of the stored 2-D arrays. -/
structure TrajSet where
  n_part : ℕ
  n_steps : ℕ
  lon : ℕ → ℕ → Option ℚ
  lat : ℕ → ℕ → Option ℚ
  time : ℕ → ℕ → Option ℚ

/-- Source line 94: `days_traj = ((time_vals - time_vals[0, 0]) / 1e9) / 86400.0`.
If either the entry or the reference time `time_vals[0,0]` is NaN the result
is NaN. -/
def days_traj (ts : TrajSet) (p t : ℕ) : Option ℚ :=
  match ts.time p t, ts.time 0 0 with
  | some x, some x0 => some ((x - x0) / 1000000000 / 86400)
  | _, _ => none

/-- Source line 103: `day = float(days_traj[0, t])` — the loop's day axis is
read from row 0 of `days_traj`. -/
def dayAt (ts : TrajSet) (t : ℕ) : Option ℚ :=
  days_traj ts 0 t

/-- Elementwise `>=` of a float against a constant: NaN compares `False`. -/
def geB : Option ℚ → ℚ → Bool
  | some v, c => decide (c ≤ v)
  | none, _ => false

/-- Elementwise `<=` of a float against a constant: NaN compares `False`. -/
def leB : Option ℚ → ℚ → Bool
  | some v, c => decide (v ≤ c)
  | none, _ => false

/-- Source lines 107-108: the `in_box` test,
`(lon >= lon_min) & (lon <= lon_max) & (lat >= lat_min) & (lat <= lat_max)`,
with the numpy NaN semantics carried by `geB`/`leB`. -/
def in_box (B : Box) (lon lat : Option ℚ) : Bool :=
  geB lon B.lon_min && leB lon B.lon_max && geB lat B.lat_min && leB lat B.lat_max

/-- The mutable state of the analysis loop: `captured_ids`, `curve`, `t_axis`
of source lines 97-99. -/
structure AnalysisState where
  captured : Finset ℕ
  curve : List ℕ
  t_axis : List ℚ

/-- The initial loop state: empty capture set, empty curve and time axis. -/
def initState : AnalysisState :=
  { captured := ∅, curve := [], t_axis := [] }

/-- Source line 109: `np.where(in_box)[0]` over the particle axis — the set of
particle indices whose step-`t` position passes the box test. -/
def new_captures (B : Box) (ts : TrajSet) (t : ℕ) : Finset ℕ :=
  (Finset.range ts.n_part).filter fun p => in_box B (ts.lon p t) (ts.lat p t) = true

/-- One iteration body of the capture loop (source lines 106-112), given the
step's day value `d`: if `d` is at least the maturation threshold `thr` the
newly matching particles are unioned into the capture set; then the running
count and the day are appended to the curve and the time axis. -/
def analysisStep (B : Box) (thr : ℚ) (ts : TrajSet) (t : ℕ) (d : ℚ) (st : AnalysisState) :
    AnalysisState :=
  let cap := if thr ≤ d then st.captured ∪ new_captures B ts t else st.captured
  { captured := cap, curve := st.curve ++ [cap.card], t_axis := st.t_axis ++ [d] }

/-- The capture loop of source lines 102-112, from step `t` on: while fuel
remains and `t < n_steps`, read the step's day; a NaN day `break`s the whole
loop, otherwise the body runs and the loop moves to step `t + 1`.  Fuel
`n_steps - t` makes this exactly `for t in range(n_steps)` with `break`. -/
def analyzeLoopFuel (B : Box) (thr : ℚ) (ts : TrajSet) : ℕ → ℕ → AnalysisState → AnalysisState
  | 0, _, st => st
  | fuel + 1, t, st =>
    if t < ts.n_steps then
      match dayAt ts t with
      | none => st
      | some d => analyzeLoopFuel B thr ts fuel (t + 1) (analysisStep B thr ts t d st)
    else st

/-- The whole capture analysis: run the loop over all `n_steps` output steps
starting from the empty state. -/
def analyze (B : Box) (thr : ℚ) (ts : TrajSet) : AnalysisState :=
  analyzeLoopFuel B thr ts ts.n_steps 0 initState

/-- Source line 31: the configured capture rectangle. -/
def AMP_BOX : Box :=
  { lon_min := 42/10, lon_max := 52/10, lat_min := 425/10, lat_max := 432/10 }

/-- Source line 32: the requested particle count. -/
def NB_PARTICLES : ℕ := 10000

/-- The analysis exactly as configured in the source: the AMP box and the
hard-coded maturation day 30 of line 106. -/
def analyzeAMP (ts : TrajSet) : AnalysisState :=
  analyze AMP_BOX 30 ts

/-- Source lines 43-46, `GibraltarWall`: clamp a longitude below the western
limit -5.8 back to -5.8. -/
def GibraltarWall (lon : ℚ) : ℚ :=
  if lon < -29/5 then -29/5 else lon

/-- Source line 59: a grid cell is land when its sampled `uo` velocity is NaN,
exceeds the sentinel `1e10`, or is exactly zero.  The snapshot is a map from
integer grid coordinates to a float sample. -/
def mask_land (uo : ℤ × ℤ → Option ℚ) (c : ℤ × ℤ) : Bool :=
  match uo c with
  | none => true
  | some v => decide (10 ^ 10 < v) || decide (v = 0)

/-- The 8-connected (full Moore, centre included) structuring element of
source line 60, `generate_binary_structure(2, 2)`, as coordinate offsets. -/
def mooreOffsets : List (ℤ × ℤ) :=
  [(-1, -1), (-1, 0), (-1, 1), (0, -1), (0, 0), (0, 1), (1, -1), (1, 0), (1, 1)]

/-- One binary dilation by the Moore structuring element: a cell is set iff
some cell of its 3×3 neighbourhood is set (outside the array counts as
`false`, matching scipy's zero border). -/
def binary_dilation (m : ℤ × ℤ → Bool) (c : ℤ × ℤ) : Bool :=
  mooreOffsets.any fun d => m (c.1 + d.1, c.2 + d.2)

/-- Iterated binary dilation. -/
def dilate_iter (m : ℤ × ℤ → Bool) : ℕ → ℤ × ℤ → Bool
  | 0 => m
  | n + 1 => binary_dilation (dilate_iter m n)

/-- Source line 61: the land mask dilated 4 times. -/
def mask_land_dilated (uo : ℤ × ℤ → Option ℚ) : ℤ × ℤ → Bool :=
  dilate_iter (mask_land uo) 4

/-- Source line 62: `mask_coastal = mask_land_dilated & (~mask_land)`. -/
def mask_coastal (uo : ℤ × ℤ → Option ℚ) (c : ℤ × ℤ) : Bool :=
  mask_land_dilated uo c && !(mask_land uo c)

/-- Model of `np.random.choice(P, N, replace=False)` (source line 69): the
randomness is abstracted as a permutation `π` of `Fin P`, and the draw is the
first `N` entries of the permuted index list — exactly the distinct-draws
contract of `replace=False`. -/
def np_choice (P N : ℕ) (π : Equiv.Perm (Fin P)) : List ℕ :=
  (((List.finRange P).map fun i => ((π i : Fin P) : ℕ)).take N)

/-- Source line 69: the seeder's index selection —
`np.random.choice(len(valid_y), NB_PARTICLES, replace=False)` when the
candidate population `P` exceeds the request `N`, else `np.arange(P)`
(every candidate, in order, no error). -/
def seeder_indices (P N : ℕ) (π : Equiv.Perm (Fin P)) : List ℕ :=
  if N < P then np_choice P N π else List.range P

/-- The unit capture box `[0,1] × [0,1]` of the spec's scenario. -/
def unitBox : Box :=
  { lon_min := 0, lon_max := 1, lat_min := 0, lat_max := 1 }

/-- Scenario positions: `(5,5)` at step 0, `(1/2, 1/2)` afterwards. -/
def scenPos : ℕ → Option ℚ
  | 0 => some 5
  | _ => some (1/2)

/-- Scenario times in nanoseconds: days 0, 30, 60. -/
def scenTime : ℕ → Option ℚ
  | 0 => some 0
  | 1 => some 2592000000000000
  | _ => some 5184000000000000

/-- The spec's single-particle scenario trajectory: one particle, three
recorded steps at days 0, 30, 60, positions (5,5), (0.5,0.5), (0.5,0.5). -/
def scenTraj : TrajSet :=
  { n_part := 1, n_steps := 3,
    lon := fun _ t => scenPos t, lat := fun _ t => scenPos t,
    time := fun _ t => scenTime t }

/-- A time axis whose step-1 entry is NaN while step 2 is well defined. -/
def c6Time : ℕ → Option ℚ
  | 0 => some 0
  | 1 => none
  | _ => some 5184000000000000

/-- A trajectory set whose day axis is corrupted (NaN) at step 1, with every
particle position still well defined at every step. -/
def c6Traj : TrajSet :=
  { n_part := 1, n_steps := 3,
    lon := fun _ _ => some (1/2), lat := fun _ _ => some (1/2),
    time := fun _ t => c6Time t }

/-- A one-particle trajectory sitting exactly on the corner `(1,1)` of the
unit box, recorded at days 0 and 30: the step whose day equals the threshold
and a position exactly on the box edges. -/
def edgeTraj : TrajSet :=
  { n_part := 1, n_steps := 2,
    lon := fun _ _ => some 1, lat := fun _ _ => some 1,
    time := fun _ t => scenTime t }

/-- The state of the analysis loop never loses a captured particle: the body
of one iteration only ever unions new indices into the capture set. -/
lemma captured_subset_step (B : Box) (thr : ℚ) (ts : TrajSet) (t : ℕ) (d : ℚ)
    (st : AnalysisState) :
    st.captured ⊆ (analysisStep B thr ts t d st).captured := by
  by_cases h : thr ≤ d <;> simp [analysisStep, h, Finset.subset_union_left]

/-- Loop invariant: from any step and state, the capture set of the state the
loop finally returns contains the capture set the loop started from. -/
lemma captured_subset_loop (B : Box) (thr : ℚ) (ts : TrajSet) :
    ∀ fuel t st, st.captured ⊆ (analyzeLoopFuel B thr ts fuel t st).captured := by
  intro fuel
  induction fuel with
  | zero => intro t st; exact Finset.Subset.refl _
  | succ n ih =>
    intro t st
    by_cases ht : t < ts.n_steps
    · cases hd : dayAt ts t with
      | none => simp [analyzeLoopFuel, ht, hd]
      | some d =>
        simp only [analyzeLoopFuel, if_pos ht, hd]
        exact (captured_subset_step B thr ts t d st).trans (ih (t + 1) _)
    · simp [analyzeLoopFuel, ht]

/-- The iteration body appends exactly the updated capture count to the curve. -/
lemma analysisStep_curve (B : Box) (thr : ℚ) (ts : TrajSet) (t : ℕ) (d : ℚ)
    (st : AnalysisState) :
    (analysisStep B thr ts t d st).curve =
      st.curve ++ [(analysisStep B thr ts t d st).captured.card] := rfl

/-- Appending a value at least as large as the old sentinel keeps a
non-decreasing list non-decreasing, with the new value as the new sentinel. -/
lemma chain_snoc_le {l : List ℕ} {a b : ℕ} (hab : a ≤ b)
    (h : List.Chain' (· ≤ ·) (l ++ [a])) :
    List.Chain' (· ≤ ·) ((l ++ [b]) ++ [b]) := by
  rw [List.chain'_append] at h
  rw [List.chain'_append, List.chain'_append]
  obtain ⟨hl, -, hlast⟩ := h
  refine ⟨⟨hl, List.chain'_singleton b, ?_⟩, List.chain'_singleton b, ?_⟩
  · intro x hx y hy
    simp at hy
    subst hy
    exact (hlast x hx a (by simp)).trans hab
  · intro x hx y hy
    simp [List.getLast?_concat] at hx
    simp at hy
    omega

/-- Loop invariant: if the curve extended by the current capture count is
non-decreasing, it stays so through the rest of the loop. -/
lemma curve_chain_invariant (B : Box) (thr : ℚ) (ts : TrajSet) :
    ∀ fuel t st,
      List.Chain' (· ≤ ·) (st.curve ++ [st.captured.card]) →
      List.Chain' (· ≤ ·)
        ((analyzeLoopFuel B thr ts fuel t st).curve ++
          [(analyzeLoopFuel B thr ts fuel t st).captured.card]) := by
  intro fuel
  induction fuel with
  | zero => intro t st h; exact h
  | succ n ih =>
    intro t st h
    by_cases ht : t < ts.n_steps
    · cases hd : dayAt ts t with
      | none => simpa [analyzeLoopFuel, ht, hd] using h
      | some d =>
        simp only [analyzeLoopFuel, if_pos ht, hd]
        apply ih
        rw [analysisStep_curve]
        exact chain_snoc_le (Finset.card_le_card (captured_subset_step B thr ts t d st)) h
    · simpa [analyzeLoopFuel, ht] using h

/-- A NaN day value at step `t` stops the accumulation loop with the state it
had on entering step `t`. -/
lemma analyzeLoopFuel_day_none (B : Box) (thr : ℚ) (ts : TrajSet) (fuel t : ℕ)
    (st : AnalysisState) (h : dayAt ts t = none) :
    analyzeLoopFuel B thr ts fuel t st = st := by
  cases fuel with
  | zero => rfl
  | succ n => simp [analyzeLoopFuel, h]

/-- Completeness of capture membership: a particle in the loop's final capture
set was already captured on entry, or at some step its day was defined, at
least the threshold, and its position passed the box test. -/
lemma mem_captured_loop (B : Box) (thr : ℚ) (ts : TrajSet) (p : ℕ) :
    ∀ fuel t st, p ∈ (analyzeLoopFuel B thr ts fuel t st).captured →
      p ∈ st.captured ∨
        ∃ t2 d, dayAt ts t2 = some d ∧ thr ≤ d ∧
          in_box B (ts.lon p t2) (ts.lat p t2) = true := by
  intro fuel
  induction fuel with
  | zero => intro t st h; exact Or.inl h
  | succ n ih =>
    intro t st h
    by_cases ht : t < ts.n_steps
    · cases hd : dayAt ts t with
      | none =>
        simp only [analyzeLoopFuel, if_pos ht, hd] at h
        exact Or.inl h
      | some d =>
        simp only [analyzeLoopFuel, if_pos ht, hd] at h
        rcases ih (t + 1) _ h with hmem | hfound
        · by_cases hth : thr ≤ d
          · simp only [analysisStep, if_pos hth] at hmem
            rcases Finset.mem_union.mp hmem with hl | hr
            · exact Or.inl hl
            · exact Or.inr ⟨t, d, hd, hth, (Finset.mem_filter.mp hr).2⟩
          · simp only [analysisStep, if_neg hth] at hmem
            exact Or.inl hmem
        · exact Or.inr hfound
    · simp only [analyzeLoopFuel, if_neg ht] at h
      exact Or.inl h

/-- C1: for every trajectory set, box and threshold, the recorded cumulative
count sequence of the capture-analysis loop is non-decreasing, and the capture
set only ever grows: whatever is in the capture set at any point of the loop
is in the capture set of every later state and is never removed. -/
theorem C1_capture_monotone (B : Box) (thr : ℚ) (ts : TrajSet) :
    List.Chain' (· ≤ ·) (analyze B thr ts).curve ∧
    ∀ fuel t st, st.captured ⊆ (analyzeLoopFuel B thr ts fuel t st).captured := by
  constructor
  · have h0 : List.Chain' (· ≤ ·) (initState.curve ++ [initState.captured.card]) := by
      simp [initState]
    have h := curve_chain_invariant B thr ts ts.n_steps 0 initState h0
    simpa [analyze] using (List.chain'_append.mp h).1
  · exact captured_subset_loop B thr ts

/-- C2: on the single-particle scenario — box `[0,1]×[0,1]`, maturation day
30, recorded trajectory (day 0, (5,5)), (day 30, (0.5,0.5)),
(day 60, (0.5,0.5)) — the analysis produces exactly the cumulative curve
`[(0,0), (30,1), (60,1)]` and the final capture set `{0}`. -/
theorem C2_single_particle_scenario :
    List.zip (analyze unitBox 30 scenTraj).t_axis (analyze unitBox 30 scenTraj).curve
      = [(0, 0), (30, 1), (60, 1)] ∧
    (analyze unitBox 30 scenTraj).captured = {0} := by
  norm_num [analyze, analyzeLoopFuel, analysisStep, initState, dayAt, days_traj,
    scenTraj, scenTime, scenPos, new_captures, in_box, geB, leB, unitBox,
    Finset.range_one, Finset.filter_singleton]

/-- C3: for every candidate population of size `P`, every request `N` and
every random outcome, the seeder returns exactly `min N P` indices with no
duplicates, and in the shortfall case `P ≤ N` it returns every candidate
index exactly once (the whole index range, no error raised). -/
theorem C3_seeder_distinct_min (P N : ℕ) (π : Equiv.Perm (Fin P)) :
    (seeder_indices P N π).length = min N P ∧
    (seeder_indices P N π).Nodup ∧
    (P ≤ N → seeder_indices P N π = List.range P) := by
  by_cases h : N < P
  · refine ⟨?_, ?_, fun hPN => absurd h (by omega)⟩
    · simp [seeder_indices, h, np_choice]
    · have hmap : (((List.finRange P).map fun i => ((π i : Fin P) : ℕ))).Nodup := by
        refine List.Nodup.map ?_ (List.nodup_finRange P)
        exact Fin.val_injective.comp π.injective
      simpa [seeder_indices, h, np_choice] using
        (List.take_sublist N _).nodup hmap
  · refine ⟨?_, ?_, fun _ => by simp [seeder_indices, h]⟩
    · simp [seeder_indices, h]
      omega
    · simp [seeder_indices, h, List.nodup_range]

/-- C4: for every input snapshot, the coastal band (dilated land AND NOT
land) is disjoint from the land mask: no cell is both land and coastal. -/
theorem C4_coastal_disjoint_land (uo : ℤ × ℤ → Option ℚ) (c : ℤ × ℤ) :
    (mask_coastal uo c && mask_land uo c) = false := by
  cases h : mask_land uo c <;> simp [mask_coastal, h]

/-- C5: the western-boundary clamp `GibraltarWall` is idempotent: applying it
twice yields the same longitude as applying it once. -/
theorem C5_gibraltar_idempotent (lon : ℚ) :
    GibraltarWall (GibraltarWall lon) = GibraltarWall lon := by
  by_cases h : lon < -29/5 <;> simp [GibraltarWall, h]

/-- C6: an undefined (NaN) day value at a step terminates the whole
accumulation loop with the state unchanged: no curve point is recorded for
that step and no later step is processed, whatever the later day values. -/
theorem C6_nan_day_stops_loop (B : Box) (thr : ℚ) (ts : TrajSet) (fuel t : ℕ)
    (st : AnalysisState) (h : dayAt ts t = none) :
    analyzeLoopFuel B thr ts fuel t st = st :=
  analyzeLoopFuel_day_none B thr ts fuel t st h

/-- Witness for C6: on `c6Traj` the day at step 1 is NaN while step 2's day
is well defined, and the loop entered at step 1 returns its entry state. -/
theorem C6_nan_day_stops_loop_witness :
    analyzeLoopFuel unitBox 30 c6Traj 5 1 initState = initState :=
  C6_nan_day_stops_loop unitBox 30 c6Traj 5 1 initState rfl

/-- C7: capture membership is inclusive everywhere: at a step whose day `d`
is at least the threshold (equality included), every particle index below
`n_part` whose position satisfies the four inclusive bound comparisons (box
edges included) is in the capture set after that step's body; and at a step
whose day is strictly below the threshold the capture set is untouched. -/
theorem C7_inclusive_capture (B : Box) (thr : ℚ) (ts : TrajSet) (t : ℕ) (d : ℚ)
    (st : AnalysisState) :
    (∀ p lo la, p < ts.n_part → thr ≤ d → ts.lon p t = some lo → ts.lat p t = some la →
      B.lon_min ≤ lo → lo ≤ B.lon_max → B.lat_min ≤ la → la ≤ B.lat_max →
      p ∈ (analysisStep B thr ts t d st).captured) ∧
    (d < thr → (analysisStep B thr ts t d st).captured = st.captured) := by
  constructor
  · intro p lo la hp hthr hlon hlat h1 h2 h3 h4
    simp only [analysisStep, if_pos hthr]
    apply Finset.mem_union_right
    simp [new_captures, Finset.mem_filter, Finset.mem_range, hp, in_box, hlon, hlat,
      geB, leB, h1, h2, h3, h4]
  · intro hlt
    simp [analysisStep, not_le.mpr hlt]

/-- Edge instance of the inclusive bounds: a particle exactly on the corner
`(1,1)` of the unit box at the step whose day exactly equals the threshold 30
is captured. -/
theorem edge_capture_demo : 0 ∈ (analyze unitBox 30 edgeTraj).captured := by
  norm_num [analyze, analyzeLoopFuel, analysisStep, initState, dayAt, days_traj,
    edgeTraj, scenTime, new_captures, in_box, geB, leB, unitBox,
    Finset.range_one, Finset.filter_singleton]

/-- C8: a particle with an undefined (NaN) longitude or latitude at a step
never passes the box test at that step (so is never added on account of it,
and no error arises — the test is a total function); consequently a particle
with no defined in-box position at any step whose day reaches the maturation
threshold is absent from the final capture set. -/
theorem C8_nan_never_captured (B : Box) (thr : ℚ) (ts : TrajSet) (p : ℕ) :
    (∀ t, ts.lon p t = none ∨ ts.lat p t = none →
      in_box B (ts.lon p t) (ts.lat p t) = false) ∧
    ((∀ t d, dayAt ts t = some d → thr ≤ d →
        in_box B (ts.lon p t) (ts.lat p t) = false) →
      p ∉ (analyze B thr ts).captured) := by
  constructor
  · intro t h
    rcases h with h | h <;> rw [h] <;> simp [in_box, geB, leB]
  · intro hno hmem
    have hmem2 : p ∈ (analyzeLoopFuel B thr ts ts.n_steps 0 initState).captured := hmem
    rcases mem_captured_loop B thr ts p ts.n_steps 0 initState hmem2 with
      h | ⟨t2, d, hd, hth, hbox⟩
    · simp [initState] at h
    · rw [hno t2 d hd hth] at hbox
      exact Bool.false_ne_true hbox

/-- C9: the mask builder classifies a cell as land iff its sampled velocity
is undefined (NaN), exceeds the sentinel `1e10`, or is exactly zero; every
other cell is sea. -/
theorem C9_land_classification (uo : ℤ × ℤ → Option ℚ) (c : ℤ × ℤ) :
    mask_land uo c = true ↔
      uo c = none ∨ ∃ v, uo c = some v ∧ ((10 : ℚ) ^ 10 < v ∨ v = 0) := by
  cases h : uo c <;> simp [mask_land, h]

/-- C10: the analyzer's day axis comes exclusively from the first particle's
(row 0's) recorded times — at step `t` it is `(time[0,t] - time[0,0])`
converted from nanoseconds to days; it is unchanged by any change outside
row 0; and when row 0's time is undefined at step `t` the loop stops there
with its state unchanged, for all particles alike. -/
theorem C10_day_axis_from_row0 (B : Box) (thr : ℚ) (ts ts2 : TrajSet) (fuel t : ℕ)
    (st : AnalysisState) :
    (∀ x x0, ts.time 0 t = some x → ts.time 0 0 = some x0 →
      dayAt ts t = some ((x - x0) / 1000000000 / 86400)) ∧
    ((∀ s, ts.time 0 s = ts2.time 0 s) → dayAt ts t = dayAt ts2 t) ∧
    (ts.time 0 t = none → analyzeLoopFuel B thr ts fuel t st = st) := by
  refine ⟨?_, ?_, ?_⟩
  · intro x x0 hx hx0
    simp [dayAt, days_traj, hx, hx0]
  · intro hagree
    simp [dayAt, days_traj, hagree t, hagree 0]
  · intro hnone
    apply analyzeLoopFuel_day_none
    cases h0 : ts.time 0 0 <;> simp [dayAt, days_traj, hnone, h0]
